import Mathlib

/-!
# Verification of the employee-churn training pipeline and inference service

Shallow embedding of `build_model.py` and `rest_api.py`.

Python scalar values flowing through the pandas dataframe are modelled by
`PyVal`: the `NaN` missing sentinel, integers, floats (as rationals), and
strings.  Functions that can raise a Python exception (`TypeError`,
`ValueError`, `KeyError`) return `Except String _`.
-/

/-- A Python scalar value as it appears in the dataframe / JSON payloads:
`NaN` (missing), an `int`, a `float` (modelled as a rational), or a `str`. -/
inductive PyVal where
  | vnan : PyVal
  | vint : ℤ → PyVal
  | vfloat : ℚ → PyVal
  | vstr : String → PyVal
deriving DecidableEq, Repr

/-- Python `==` between scalar values: `NaN` compares unequal to everything
(including itself), `int` and `float` compare numerically, strings compare
by content, and values of unrelated types compare unequal. -/
def pyEq : PyVal → PyVal → Bool
  | .vnan, _ => false
  | _, .vnan => false
  | .vint a, .vint b => a = b
  | .vint a, .vfloat q => (a : ℚ) = q
  | .vfloat q, .vint a => q = (a : ℚ)
  | .vfloat a, .vfloat b => a = b
  | .vstr a, .vstr b => a = b
  | _, _ => false

/-- Python `c in s` for a single-character needle: membership of the
character in the string. -/
def pyContains (s : String) (c : Char) : Bool := decide (c ∈ s.data)

/-- Python `s.split(c)[0]`: the characters of `s` before the first
occurrence of `c` (the whole string when `c` does not occur). -/
def splitHead (s : String) (c : Char) : String :=
  String.mk (s.data.takeWhile (fun d => d ≠ c))

/-- Python `s.startswith(c)`: the first character of `s` is `c`. -/
def pyStartsWith (s : String) (c : Char) : Bool :=
  decide (s.data.head? = some c)

/-- Python `int(x)` truncates a float toward zero. -/
def pyTrunc (q : ℚ) : ℤ := if 0 ≤ q then ⌊q⌋ else ⌈q⌉

/-- Decimal digit parse of a nonempty all-digit character list. -/
def parseDigits (l : List Char) : Option ℕ :=
  if l ≠ [] ∧ l.all Char.isDigit then
    some (l.foldl (fun n c => n * 10 + (c.toNat - 48)) 0)
  else none

/-- Integer-literal string parse, as Python `int(str)` / numpy string
casts behave on this pipeline's value domain: an optional minus sign
followed by decimal digits; anything else fails. -/
def strToInt? (s : String) : Option ℤ :=
  match s.data with
  | [] => none
  | '-' :: rest => (parseDigits rest).map (fun n => -(n : ℤ))
  | l => (parseDigits l).map (fun n => (n : ℤ))

/-- Python `int(x)` on a scalar: passes integers through, truncates floats,
parses integer-literal strings, raises `ValueError` otherwise. -/
def pyIntFn : PyVal → Except String PyVal
  | .vint i => .ok (.vint i)
  | .vfloat q => .ok (.vint (pyTrunc q))
  | .vstr s =>
      match strToInt? s with
      | some i => .ok (.vint i)
      | none => .error "ValueError"
  | .vnan => .error "ValueError"

/-! ## `build_model.py`, `preprocess_dataset` (lines 47–55 and 97):
training-time experience normalization -/

/-- `build_model.py` lines 47–55: `convert_experience_to_int`.  Missing
becomes the string `"-1"`, `"<1"` becomes `"0"`, `">20"` becomes `"21"`,
everything else is returned unchanged (still a string at this point). -/
def convert_experience_to_int (row : PyVal) : PyVal :=
  match row with
  | .vnan => .vstr "-1"
  | v =>
      if pyEq v (.vstr "<1") then .vstr "0"
      else if pyEq v (.vstr ">20") then .vstr "21"
      else v

/-- Two's-complement wrap into the `int8` range `-128..127`. -/
def int8wrap (i : ℤ) : ℤ := (i + 128) % 256 - 128

/-- `pandas .astype(np.int8)` on one cell: parse a string / coerce a number
to an integer and wrap it into the `int8` range; fails on non-numeric
strings and on `NaN`. -/
def astypeInt8 : PyVal → Except String ℤ
  | .vstr s =>
      match strToInt? s with
      | some i => .ok (int8wrap i)
      | none => .error "ValueError"
  | .vint i => .ok (int8wrap i)
  | .vfloat q => .ok (int8wrap (pyTrunc q))
  | .vnan => .error "ValueError"

/-- `build_model.py` line 97: the experience column is mapped through
`convert_experience_to_int` and then cast with `.astype(np.int8)`. -/
def normalizeExperienceTrain (row : PyVal) : Except String ℤ :=
  astypeInt8 (convert_experience_to_int row)

/-- The raw experience values occurring in the dataset: missing, `"<1"`,
`">20"`, and the numeric strings `"1"` … `"20"`. -/
def expDomain : List PyVal :=
  [.vnan, .vstr "<1", .vstr ">20",
   .vstr "1", .vstr "2", .vstr "3", .vstr "4", .vstr "5",
   .vstr "6", .vstr "7", .vstr "8", .vstr "9", .vstr "10",
   .vstr "11", .vstr "12", .vstr "13", .vstr "14", .vstr "15",
   .vstr "16", .vstr "17", .vstr "18", .vstr "19", .vstr "20"]

/-- The claim-side expected value of the experience normalization:
missing ↦ -1, `"<1"` ↦ 0, `">20"` ↦ 21, numeric string ↦ its integer
value. -/
def expSpecVal : PyVal → ℤ
  | .vnan => -1
  | .vstr "<1" => 0
  | .vstr ">20" => 21
  | .vstr s => (strToInt? s).getD 0
  | .vint i => i
  | .vfloat q => pyTrunc q

/-! ## `build_model.py`, lines 57–68: company-size normalization -/

/-- `build_model.py` lines 57–68: `convert_size_to_int`.  Missing becomes
the integer -1; a string containing `+` becomes 10000, containing `/`
becomes 10, containing `<` becomes 0, containing `-` becomes the substring
left of the first hyphen (still a string); any other string is returned
unchanged.  A non-string, non-missing value (e.g. an already-normalized
integer) raises `TypeError`, because Python evaluates `'+' in row` on it. -/
def convert_size_to_int : PyVal → Except String PyVal
  | .vnan => .ok (.vint (-1))
  | .vstr s =>
      if pyContains s '+' then .ok (.vint 10000)
      else if pyContains s '/' then .ok (.vint 10)
      else if pyContains s '<' then .ok (.vint 0)
      else if pyContains s '-' then .ok (.vstr (splitHead s '-'))
      else .ok (.vstr s)
  | .vint _ => .error "TypeError"
  | .vfloat _ => .error "TypeError"

/-- Modelled from the claim wording of C2 (the spec's §4.1 company-size
rule): identical to the code except that the zero bucket requires the
string to *start* with `<`, and any non-missing value that is not matched
by a string rule is passed through unchanged. -/
def convert_size_claimC2 : PyVal → Except String PyVal
  | .vnan => .ok (.vint (-1))
  | .vstr s =>
      if pyContains s '+' then .ok (.vint 10000)
      else if pyContains s '/' then .ok (.vint 10)
      else if pyStartsWith s '<' then .ok (.vint 0)
      else if pyContains s '-' then .ok (.vstr (splitHead s '-'))
      else .ok (.vstr s)
  | v => .ok v

/-- Modelled from the amended claim C2: same as `convert_size_claimC2`
but the zero bucket fires on any string *containing* `<`, and the
pass-through case is restricted to strings. -/
def convert_size_amendedC2 : PyVal → Except String PyVal
  | .vnan => .ok (.vint (-1))
  | .vstr s =>
      if pyContains s '+' then .ok (.vint 10000)
      else if pyContains s '/' then .ok (.vint 10)
      else if pyContains s '<' then .ok (.vint 0)
      else if pyContains s '-' then .ok (.vstr (splitHead s '-'))
      else .ok (.vstr s)
  | .vint _ => .error "TypeError"
  | .vfloat _ => .error "TypeError"

/-- The company-size inputs the training data actually contains: missing
or a string. -/
def SizeInput (v : PyVal) : Prop := v = .vnan ∨ ∃ s : String, v = .vstr s

/-! ## `rest_api.py`, lines 24–73: the inference adapter -/

/-- `rest_api.py` lines 40–48: the ad-hoc `convert_experience_to_int` of
the API.  The missing, `"<1"` and `">20"` branches return the *strings*
`"-1"`, `"0"`, `"21"`; only the final branch applies Python `int(...)`. -/
def convert_experience_to_int_api (row : PyVal) : Except String PyVal :=
  match row with
  | .vnan => .ok (.vstr "-1")
  | v =>
      if pyEq v (.vstr "<1") then .ok (.vstr "0")
      else if pyEq v (.vstr ">20") then .ok (.vstr "21")
      else pyIntFn v

/-- `data[k]` on the JSON-derived series: the stored value, or a
`KeyError` when the key is absent. -/
def getKey (input : String → Option PyVal) (k : String) : Except String PyVal :=
  match input k with
  | some v => .ok v
  | none => .error "KeyError"

/-- `rest_api.py` lines 24–56: `preprocess_input`.  Builds the series from
the JSON object, derives `city_21` by comparing the raw city value with
the integer 21, derives `company_type_not_specified` by comparing with the
sentinel string, converts experience, and selects the four feature values
in the order `[city_development_index, experience, city_21,
company_type_not_specified]`. -/
def preprocess_input (input : String → Option PyVal) :
    Except String (List PyVal) := do
  let city ← getKey input "city"
  let city21 : PyVal := if pyEq city (.vint 21) then .vfloat 1 else .vfloat 0
  let companyType ← getKey input "company_type"
  let ctFlag : PyVal :=
    if pyEq companyType (.vstr "not_specified") then .vfloat 1 else .vfloat 0
  let expRaw ← getKey input "experience"
  let expVal ← convert_experience_to_int_api expRaw
  let cdi ← getKey input "city_development_index"
  return [cdi, expVal, city21, ctFlag]

/-- `rest_api.py` lines 59–73: the `/predict` endpoint feeds the
preprocessed 4-vector to the loaded classifier (modelled as an abstract
function from feature vectors to class labels). -/
def predict_employee_churn (clf : List PyVal → ℤ)
    (input : String → Option PyVal) : Except String ℤ :=
  (preprocess_input input).map clf

/-- Whether an API normalization result is an integer value. -/
def isIntResult : Except String PyVal → Bool
  | .ok (.vint _) => true
  | _ => false

/-- The raw record of the spec's end-to-end scenario (claim C5):
`{city:"city_21", company_type:"not_specified", city_development_index:0.9,
experience:">20"}`. -/
def c5input : String → Option PyVal := fun k =>
  if k = "city" then some (.vstr "city_21")
  else if k = "company_type" then some (.vstr "not_specified")
  else if k = "city_development_index" then some (.vfloat (9/10))
  else if k = "experience" then some (.vstr ">20")
  else none

/-- A record agreeing with `c5input` on the four relevant keys but
carrying an extra `enrollee_id` key. -/
def c9inputA : String → Option PyVal := fun k =>
  if k = "enrollee_id" then some (.vint 1) else c5input k

/-- Like `c9inputA` with a different `enrollee_id` and one more
irrelevant key. -/
def c9inputB : String → Option PyVal := fun k =>
  if k = "enrollee_id" then some (.vint 2)
  else if k = "gender" then some (.vstr "Male")
  else c5input k

/-! ## `build_model.py`, lines 144–150: cross-validated model selection -/

/-- `np.max` over the list of per-fold scores. -/
def maxList : List ℚ → ℚ
  | [] => 0
  | [x] => x
  | x :: y :: xs => max x (maxList (y :: xs))

/-- `np.argmax`: the index of the *first* occurrence of the maximum
(numpy documents first-occurrence semantics for ties). -/
def argmaxList : List ℚ → ℕ
  | [] => 0
  | [_] => 0
  | x :: y :: xs => if maxList (y :: xs) ≤ x then 0 else argmaxList (y :: xs) + 1

/-- Arithmetic mean of the per-fold scores, for the "never the mean"
contrast of claim C4. -/
def meanList (l : List ℚ) : ℚ := l.sum / l.length

/-- `build_model.py` lines 144–150: `train_classifier` keeps
`result.estimator[np.argmax(result.test_score)]` as the model and reports
`np.max(result.test_score) * 100.0` as the headline accuracy.  The five
fitted fold estimators and their held-out scores are inputs here; the
estimator type is abstract. -/
def train_classifier {α : Type} (estimators : List α) (scores : List ℚ) :
    Option α × ℚ :=
  (estimators[argmaxList scores]?, 100 * maxList scores)

/-! ## `build_model.py`, lines 103–121: `encode_features` -/

/-- One row of the training dataframe after `preprocess_dataset`: the 14
CSV columns, last one the target label. -/
structure Record where
  enrollee_id : PyVal
  city : PyVal
  city_development_index : PyVal
  gender : PyVal
  relevent_experience : PyVal
  enrolled_university : PyVal
  education_level : PyVal
  major_discipline : PyVal
  experience : PyVal
  company_size : PyVal
  company_type : PyVal
  last_new_job : PyVal
  training_hours : PyVal
  target : PyVal
deriving DecidableEq, Repr

/-- `fillna('not_specified')` on one cell. -/
def fillnaVal (v : PyVal) : PyVal :=
  match v with
  | .vnan => .vstr "not_specified"
  | w => w

/-- `build_model.py` line 109: `df.fillna('not_specified')` applies the
fill to every column of the dataframe. -/
def fillnaRecord (r : Record) : Record where
  enrollee_id := fillnaVal r.enrollee_id
  city := fillnaVal r.city
  city_development_index := fillnaVal r.city_development_index
  gender := fillnaVal r.gender
  relevent_experience := fillnaVal r.relevent_experience
  enrolled_university := fillnaVal r.enrolled_university
  education_level := fillnaVal r.education_level
  major_discipline := fillnaVal r.major_discipline
  experience := fillnaVal r.experience
  company_size := fillnaVal r.company_size
  company_type := fillnaVal r.company_type
  last_new_job := fillnaVal r.last_new_job
  training_hours := fillnaVal r.training_hours
  target := fillnaVal r.target

/-- The six nominal columns passed to the `OneHotEncoder`
(`build_model.py` line 112), in source order. -/
def nominalFields : List (String × (Record → PyVal)) :=
  [("city", Record.city), ("gender", Record.gender),
   ("relevent_experience", Record.relevent_experience),
   ("enrolled_university", Record.enrolled_university),
   ("major_discipline", Record.major_discipline),
   ("company_type", Record.company_type)]

/-- The six ordinal/numeric pass-through columns
(`build_model.py` line 118), in source order. -/
def nonCategoricalFields : List (String × (Record → PyVal)) :=
  [("city_development_index", Record.city_development_index),
   ("experience", Record.experience),
   ("company_size", Record.company_size),
   ("last_new_job", Record.last_new_job),
   ("training_hours", Record.training_hours),
   ("education_level", Record.education_level)]

/-- Rendering of a level for the `<field>_<level>` one-hot column names of
`get_feature_names_out`. -/
def reprVal : PyVal → String
  | .vnan => "nan"
  | .vint i => toString i
  | .vfloat q => toString q
  | .vstr s => s

/-- The distinct levels observed in one nominal column — the
`categories_` of the fitted `OneHotEncoder`.  `np.unique` sorts the
levels; only their count and their grouping by field matter here, so
first-occurrence order stands in for sorted order. -/
def categoriesOf (df : List Record) (g : Record → PyVal) : List PyVal :=
  (df.map g).dedup

/-- One-hot indicator columns of one nominal field: one column named
`<field>_<level>` per observed level, holding 1.0 where the row's value
equals the level and 0.0 elsewhere. -/
def oneHotField (df : List Record) (name : String) (g : Record → PyVal) :
    List (String × List PyVal) :=
  (categoriesOf df g).map fun c =>
    (name ++ "_" ++ reprVal c,
     df.map fun r => if g r = c then PyVal.vfloat 1 else PyVal.vfloat 0)

/-- All one-hot columns, grouped by source field in `nominalFields`
order. -/
def oneHotColumns (df : List Record) : List (String × List PyVal) :=
  (nominalFields.map (fun fg => oneHotField df fg.1 fg.2)).flatten

/-- The ordinal/numeric pass-through columns. -/
def nonCategoricalColumns (df : List Record) : List (String × List PyVal) :=
  nonCategoricalFields.map (fun fg => (fg.1, df.map fg.2))

/-- `build_model.py` lines 103–121: `encode_features`.  Fills missing
values with the `'not_specified'` sentinel across the whole dataframe,
takes the last column as the label vector, one-hot-encodes the six nominal
columns, and concatenates the ordinal/numeric columns (first) with the
encoded columns. -/
def encode_features (df : List Record) :
    List (String × List PyVal) × List PyVal :=
  let dff := df.map fillnaRecord
  (nonCategoricalColumns dff ++ oneHotColumns dff, dff.map Record.target)

/-- Column access by name in the encoded matrix. -/
def colLookup (X : List (String × List PyVal)) (name : String) :
    Option (List PyVal) :=
  (X.find? (fun col => col.1 == name)).map (fun col => col.2)

/-! ## `build_model.py`, lines 131–138: `select_features` -/

/-- Ascending comparison used by the stable argsort of the per-feature
ANOVA scores: by score, ties by original index. -/
def keyLE (scores : List ℚ) (i j : ℕ) : Bool :=
  decide (scores.getD i 0 < scores.getD j 0 ∨
    (scores.getD i 0 = scores.getD j 0 ∧ i ≤ j))

/-- `np.argsort(scores, kind="mergesort")`: the indices `0..n-1` sorted
ascending by score, stably.  Because `keyLE` breaks score ties by index,
the sorted list is unique, so any correct stable sort produces the same
output as numpy's mergesort; insertion sort is used for computability. -/
def argsortStable (scores : List ℚ) : List ℕ :=
  (List.range scores.length).insertionSort (fun i j => keyLE scores i j)

/-- `SelectKBest._get_support_mask`: the selected indices are the last `k`
entries of the ascending argsort of the scores. -/
def topkIndices (scores : List ℚ) (k : ℕ) : List ℕ :=
  (argsortStable scores).drop (scores.length - k)

/-- The boolean support mask over the columns, in original column
order. -/
def supportMask (scores : List ℚ) (k : ℕ) : List Bool :=
  (List.range scores.length).map (fun i => decide (i ∈ topkIndices scores k))

/-- `build_model.py` lines 131–138: `select_features` /
`SelectKBest.fit_transform` — keeps the masked columns, preserving their
original relative order.  The per-column scores stand for the ANOVA
F-statistics; the selection mechanics do not depend on how they were
computed. -/
def select_features {α : Type} (cols : List α) (scores : List ℚ) (k : ℕ) :
    List α :=
  ((cols.zip (supportMask scores k)).filter (fun p => p.2)).map (fun p => p.1)

/-- A concrete stand-in classifier for instantiating the endpoint
noninterference statement. -/
def constClf : List PyVal → ℤ := fun v => v.length

/-- A concrete dataframe row with missing `city_development_index`,
`company_type`, `training_hours` and target label. -/
def sampleRow : Record where
  enrollee_id := .vint 1
  city := .vint 21
  city_development_index := .vnan
  gender := .vstr "Male"
  relevent_experience := .vstr "Has relevent experience"
  enrolled_university := .vstr "no_enrollment"
  education_level := .vint 2
  major_discipline := .vstr "STEM"
  experience := .vint 5
  company_size := .vstr "50"
  company_type := .vnan
  last_new_job := .vint 1
  training_hours := .vnan
  target := .vnan

/-!
# Theorems

One named theorem per claim C1–C10, with counterexamples for the
corrected claims and witnesses for the theorems that carry hypotheses.
-/

/-- C1: for every raw experience value of the dataset's value domain
(missing, `"<1"`, `">20"`, or one of the numeric strings `"1"`–`"20"`),
the training-time normalization (map + `astype(np.int8)`) maps missing to
-1, `"<1"` to 0, `">20"` to 21 and a numeric string to its integer value,
so the normalized experience column lies in the range -1..21. -/
theorem C1_experience_normalization (v : PyVal) (h : v ∈ expDomain) :
    normalizeExperienceTrain v = .ok (expSpecVal v) ∧
      -1 ≤ expSpecVal v ∧ expSpecVal v ≤ 21 := by
  fin_cases h <;> exact ⟨rfl, by decide, by decide⟩

/-- C1 witness: the numeric string `"3"` normalizes to 3, inside
-1..21. -/
theorem C1_experience_normalization_witness :
    normalizeExperienceTrain (.vstr "3") = .ok (expSpecVal (.vstr "3")) ∧
      -1 ≤ expSpecVal (.vstr "3") ∧ expSpecVal (.vstr "3") ≤ 21 :=
  C1_experience_normalization (.vstr "3") (by decide)

/-- C2 counterexample: on `"x<"` — a string containing but not starting
with `<` — the code maps to the 0 bucket while the claim's rule
(`starting with '<'`) would pass the string through unchanged. -/
theorem C2_counterexample :
    convert_size_to_int (.vstr "x<") ≠ convert_size_claimC2 (.vstr "x<") := by
  intro h
  rw [show convert_size_to_int (.vstr "x<") = .ok (.vint 0) from rfl,
    show convert_size_claimC2 (.vstr "x<") = .ok (.vstr "x<") from rfl] at h
  simp at h

/-- C2 (amended): the company-size normalization maps missing to -1, a
string containing `+` to 10000, containing `/` to 10, *containing* `<`
to 0, containing `-` to the substring left of the hyphen (kept as a
string), any other string through unchanged — branches in that priority
order — and raises `TypeError` on non-missing non-string input. -/
theorem C2_company_size_amended (v : PyVal) :
    convert_size_to_int v = convert_size_amendedC2 v := by
  cases v <;> rfl

/-- The head segment cut at `c` never contains `c`. -/
theorem pyContains_splitHead_self (s : String) (c : Char) :
    pyContains (splitHead s c) c = false := by
  simp only [pyContains, splitHead, decide_eq_false_iff_not]
  intro hmem
  have hp := List.mem_takeWhile_imp hmem
  simp at hp

/-- Characters absent from `s` are absent from its head segment. -/
theorem pyContains_splitHead_mono (s : String) (c d : Char)
    (h : pyContains s d = false) :
    pyContains (splitHead s c) d = false := by
  simp only [pyContains, decide_eq_false_iff_not] at h ⊢
  intro hmem
  exact h ((List.takeWhile_sublist _).subset hmem)

/-- C3 counterexample: re-normalizing the already-normalized integer -1
does not return it unchanged — the code raises `TypeError` on any integer,
because Python evaluates `'+' in row` on it. -/
theorem C3_counterexample :
    convert_size_to_int (.vint (-1)) ≠ .ok (.vint (-1)) := by
  rw [show convert_size_to_int (.vint (-1)) = .error "TypeError" from rfl]
  simp

/-- C3 (amended): company-size normalization is idempotent on its *string*
outputs — whenever it produces a string, re-normalizing that string is a
no-op — while its integer outputs (such as -1, 0, 10, 10000) cannot be
re-normalized: the function raises `TypeError` on every integer input. -/
theorem C3_size_idempotent_amended :
    (∀ s t : String, convert_size_to_int (.vstr s) = .ok (.vstr t) →
        convert_size_to_int (.vstr t) = .ok (.vstr t)) ∧
      ∀ i : ℤ, convert_size_to_int (.vint i) = .error "TypeError" := by
  constructor
  · intro s t h
    by_cases h1 : pyContains s '+' = true
    · simp [convert_size_to_int, h1] at h
    · by_cases h2 : pyContains s '/' = true
      · simp [convert_size_to_int, h1, h2] at h
      · by_cases h3 : pyContains s '<' = true
        · simp [convert_size_to_int, h1, h2, h3] at h
        · by_cases h4 : pyContains s '-' = true
          · simp [convert_size_to_int, h1, h2, h3, h4] at h
            subst h
            have e0 := pyContains_splitHead_self s '-'
            have e1 := pyContains_splitHead_mono s '-' '+'
              ((Bool.not_eq_true _) ▸ h1)
            have e2 := pyContains_splitHead_mono s '-' '/'
              ((Bool.not_eq_true _) ▸ h2)
            have e3 := pyContains_splitHead_mono s '-' '<'
              ((Bool.not_eq_true _) ▸ h3)
            simp [convert_size_to_int, e0, e1, e2, e3]
          · simp [convert_size_to_int, h1, h2, h3, h4] at h
            subst h
            simp [convert_size_to_int, h1, h2, h3, h4]
  · intro i
    rfl

/-- C3 witness: the string output `"50"` of bucketing `"50-99"` is a fixed
point, and the integer output 10000 raises `TypeError`. -/
theorem C3_size_idempotent_amended_witness :
    convert_size_to_int (.vstr "50") = .ok (.vstr "50") ∧
      convert_size_to_int (.vint 10000) = .error "TypeError" :=
  ⟨C3_size_idempotent_amended.1 "50-99" "50" rfl,
    C3_size_idempotent_amended.2 10000⟩

/-- Every score is bounded by `maxList`. -/
theorem le_maxList : ∀ (l : List ℚ), ∀ a ∈ l, a ≤ maxList l
  | [], a, ha => by cases ha
  | [x], a, ha => by
    rw [List.mem_singleton] at ha
    subst ha
    exact le_rfl
  | x :: y :: xs, a, ha => by
    rcases List.mem_cons.mp ha with rfl | h
    · exact le_max_left _ _
    · exact le_trans (le_maxList (y :: xs) a h) (le_max_right _ _)

/-- `np.argmax` stays in bounds on a nonempty list. -/
theorem argmaxList_lt_length :
    ∀ (l : List ℚ), l ≠ [] → argmaxList l < l.length
  | [], h => absurd rfl h
  | [x], _ => by simp [argmaxList]
  | x :: y :: xs, _ => by
    by_cases hle : maxList (y :: xs) ≤ x
    · simp [argmaxList, if_pos hle]
    · simp only [argmaxList, if_neg hle, List.length_cons]
      have := argmaxList_lt_length (y :: xs) (by simp)
      simpa using Nat.succ_lt_succ this

/-- The score at the argmax position is the maximum. -/
theorem argmaxList_getElem :
    ∀ (l : List ℚ), l ≠ [] → l[argmaxList l]? = some (maxList l)
  | [], h => absurd rfl h
  | [x], _ => rfl
  | x :: y :: xs, _ => by
    by_cases hle : maxList (y :: xs) ≤ x
    · simp only [argmaxList, maxList, if_pos hle, List.getElem?_cons_zero,
        max_eq_left hle]
    · simp only [argmaxList, maxList, if_neg hle, List.getElem?_cons_succ]
      rw [argmaxList_getElem (y :: xs) (by simp),
        max_eq_right (le_of_not_le hle)]

/-- Every score strictly before the argmax position is strictly below the
maximum: `np.argmax` returns the *first* maximal index. -/
theorem argmaxList_first :
    ∀ (l : List ℚ) (j : ℕ), j < argmaxList l →
      ∀ v, l[j]? = some v → v < maxList l
  | [], j, hj => by simp [argmaxList] at hj
  | [x], j, hj => by simp [argmaxList] at hj
  | x :: y :: xs, j, hj => by
    intro v hv
    by_cases hle : maxList (y :: xs) ≤ x
    · rw [argmaxList, if_pos hle] at hj
      cases hj
    · rw [argmaxList, if_neg hle] at hj
      have hx : x < maxList (y :: xs) := not_le.mp hle
      have hmax : maxList (x :: y :: xs) = maxList (y :: xs) := by
        rw [maxList, max_eq_right (le_of_lt hx)]
      rw [hmax]
      cases j with
      | zero =>
        rw [List.getElem?_cons_zero] at hv
        injection hv with hv
        exact hv ▸ hx
      | succ j' =>
        rw [List.getElem?_cons_succ] at hv
        exact argmaxList_first (y :: xs) j' (Nat.lt_of_succ_lt_succ hj) v hv

/-- Sum of a list bounded above termwise. -/
theorem sum_le_length_mul_max (M : ℚ) :
    ∀ (l : List ℚ), (∀ a ∈ l, a ≤ M) → l.sum ≤ l.length * M
  | [], _ => by simp
  | x :: xs, h => by
    simp only [List.sum_cons, List.length_cons]
    have h1 : x ≤ M := h x (List.mem_cons_self _ _)
    have h2 : xs.sum ≤ xs.length * M :=
      sum_le_length_mul_max M xs (fun a ha => h a (List.mem_cons_of_mem _ ha))
    push_cast
    linarith

/-- The sum is strictly below `length * M` as soon as one term is. -/
theorem sum_lt_length_mul_max (M : ℚ) :
    ∀ (l : List ℚ), (∀ a ∈ l, a ≤ M) → (∃ a ∈ l, a < M) →
      l.sum < l.length * M
  | [], _, hex => by
    rcases hex with ⟨a, ha, _⟩
    cases ha
  | x :: xs, h, hex => by
    simp only [List.sum_cons, List.length_cons]
    have h1 : x ≤ M := h x (List.mem_cons_self _ _)
    have hs : xs.sum ≤ xs.length * M :=
      sum_le_length_mul_max M xs (fun a ha => h a (List.mem_cons_of_mem _ ha))
    rcases hex with ⟨a, ha, haM⟩
    rcases List.mem_cons.mp ha with rfl | hmem
    · push_cast
      linarith
    · have hstrict :=
        sum_lt_length_mul_max M xs
          (fun b hb => h b (List.mem_cons_of_mem _ hb)) ⟨a, hmem, haM⟩
      push_cast at hstrict ⊢
      linarith

/-- The mean of the scores is strictly below their maximum whenever the
scores are not all equal to the maximum. -/
theorem meanList_lt_maxList (l : List ℚ) (hne : l ≠ [])
    (hex : ∃ a ∈ l, a < maxList l) : meanList l < maxList l := by
  have hlen : 0 < (l.length : ℚ) := by
    have : 0 < l.length := List.length_pos.mpr hne
    exact_mod_cast this
  have hsum := sum_lt_length_mul_max (maxList l) l (le_maxList l) hex
  rw [mul_comm] at hsum
  rw [meanList, div_lt_iff₀ hlen]
  exact hsum

/-- C4: after 5-fold cross-validation the retained model is the estimator
of the first fold whose held-out accuracy is maximal (no refit, no
ensemble), and the reported headline accuracy is `100 *` the maximum of
the per-fold accuracies — strictly above `100 *` their mean whenever the
folds do not all tie. -/
theorem C4_best_fold_selection {α : Type} (estimators : List α)
    (scores : List ℚ) (hs : scores.length = 5)
    (he : estimators.length = 5) :
    ∃ i : ℕ, i < 5 ∧
      (train_classifier estimators scores).1 = estimators[i]? ∧
      (∃ e, estimators[i]? = some e) ∧
      scores[i]? = some (maxList scores) ∧
      (∀ j, j < i → ∀ v, scores[j]? = some v → v < maxList scores) ∧
      (train_classifier estimators scores).2 = 100 * maxList scores ∧
      ((∃ a ∈ scores, a < maxList scores) →
        100 * meanList scores < 100 * maxList scores) := by
  have hne : scores ≠ [] := by
    intro h
    rw [h] at hs
    cases hs
  have hlt : argmaxList scores < 5 := by
    have := argmaxList_lt_length scores hne
    rw [hs] at this
    exact this
  refine ⟨argmaxList scores, hlt, rfl, ?_, argmaxList_getElem scores hne,
    fun j hj v hv => argmaxList_first scores j hj v hv, rfl, ?_⟩
  · have hbound : argmaxList scores < estimators.length := by
      rw [he]
      exact hlt
    exact ⟨estimators[argmaxList scores],
      List.getElem?_eq_getElem hbound⟩
  · intro hex
    have := meanList_lt_maxList scores hne hex
    linarith

/-- C4 witness: on the concrete fold scores `[1/2, 3/4, 2/3, 3/4, 1/4]`
the second estimator (first maximal fold) is retained and the reported
accuracy is `100 * 3/4`. -/
theorem C4_best_fold_selection_witness :
    ∃ i : ℕ, i < 5 ∧
      (train_classifier ["t1", "t2", "t3", "t4", "t5"]
          [1/2, 3/4, 2/3, 3/4, 1/4]).1 =
        ["t1", "t2", "t3", "t4", "t5"][i]? ∧
      (∃ e, ["t1", "t2", "t3", "t4", "t5"][i]? = some e) ∧
      ([1/2, 3/4, 2/3, 3/4, 1/4] : List ℚ)[i]? =
        some (maxList [1/2, 3/4, 2/3, 3/4, 1/4]) ∧
      (∀ j, j < i → ∀ v, ([1/2, 3/4, 2/3, 3/4, 1/4] : List ℚ)[j]? = some v →
        v < maxList [1/2, 3/4, 2/3, 3/4, 1/4]) ∧
      (train_classifier ["t1", "t2", "t3", "t4", "t5"]
          [1/2, 3/4, 2/3, 3/4, 1/4]).2 =
        100 * maxList [1/2, 3/4, 2/3, 3/4, 1/4] ∧
      ((∃ a ∈ ([1/2, 3/4, 2/3, 3/4, 1/4] : List ℚ),
          a < maxList [1/2, 3/4, 2/3, 3/4, 1/4]) →
        100 * meanList [1/2, 3/4, 2/3, 3/4, 1/4] <
          100 * maxList [1/2, 3/4, 2/3, 3/4, 1/4]) :=
  C4_best_fold_selection ["t1", "t2", "t3", "t4", "t5"]
    [1/2, 3/4, 2/3, 3/4, 1/4] rfl rfl

/-- C5 counterexample: on the spec's raw record `{city:"city_21",
company_type:"not_specified", city_development_index:0.9,
experience:">20"}` the adapter does *not* produce `[0.9, 21, 1.0, 1.0]`
(under either an integer or a float reading of the claimed `21`): the
`city_21` indicator comes out 0.0 because the code compares the raw string
`"city_21"` with the integer 21. -/
theorem C5_counterexample :
    preprocess_input c5input ≠
        .ok [.vfloat (9/10), .vint 21, .vfloat 1, .vfloat 1] ∧
      preprocess_input c5input ≠
        .ok [.vfloat (9/10), .vfloat 21, .vfloat 1, .vfloat 1] := by
  rw [show preprocess_input c5input =
      .ok [.vfloat (9/10), .vstr "21", .vfloat 0, .vfloat 1] from rfl]
  constructor <;> · intro h; simp at h

/-- C5 (amended): on the spec's raw record the adapter produces
`[0.9, "21", 0.0, 1.0]`: the experience entry is the *string* `"21"` and
the `city_21` indicator is 0.0, because the raw city value is the string
`"city_21"`, which Python compares unequal to the integer 21. -/
theorem C5_preprocess_scenario_amended :
    preprocess_input c5input =
      .ok [.vfloat (9/10), .vstr "21", .vfloat 0, .vfloat 1] := rfl

/-- C6 counterexample: the `">20"` branch of the API experience
normalization does not return an integer (it returns the string
`"21"`). -/
theorem C6_counterexample :
    isIntResult (convert_experience_to_int_api (.vstr ">20")) = false := rfl

/-- C6 (amended): the API experience normalization follows the training
rule numerically — missing ↦ `"-1"`, `"<1"` ↦ `"0"`, `">20"` ↦ `"21"` —
but those three branches return *strings*; only the remaining branch
(Python `int(...)`) yields an integer: integers pass through and numeric
strings parse to their integer value. -/
theorem C6_api_experience_amended :
    convert_experience_to_int_api .vnan = .ok (.vstr "-1") ∧
      convert_experience_to_int_api (.vstr "<1") = .ok (.vstr "0") ∧
      convert_experience_to_int_api (.vstr ">20") = .ok (.vstr "21") ∧
      (∀ i : ℤ, convert_experience_to_int_api (.vint i) = .ok (.vint i)) ∧
      ∀ (s : String) (n : ℤ), strToInt? s = some n →
        convert_experience_to_int_api (.vstr s) = .ok (.vint n) := by
  refine ⟨rfl, rfl, rfl, fun i => rfl, ?_⟩
  intro s n h
  by_cases h1 : s = "<1"
  · subst h1
    rw [show strToInt? "<1" = none from rfl] at h
    cases h
  · by_cases h2 : s = ">20"
    · subst h2
      rw [show strToInt? ">20" = none from rfl] at h
      cases h
    · have e1 : pyEq (.vstr s) (.vstr "<1") = false := by
        simp [pyEq, h1]
      have e2 : pyEq (.vstr s) (.vstr ">20") = false := by
        simp [pyEq, h2]
      simp [convert_experience_to_int_api, e1, e2, pyIntFn, h]

/-- C6 witness: the numeric string `"7"` parses and yields the integer
7. -/
theorem C6_api_experience_amended_witness :
    strToInt? "7" = some 7 ∧
      convert_experience_to_int_api (.vstr "7") = .ok (.vint 7) :=
  ⟨rfl, C6_api_experience_amended.2.2.2.2 "7" 7 rfl⟩

/-- C9: any two JSON records that agree on the keys `city`,
`city_development_index`, `experience` and `company_type` preprocess to
identical feature vectors, and the endpoint returns identical predictions
for them under any classifier; no other key influences the output. -/
theorem C9_prediction_depends_only_on_four_keys
    (f g : String → Option PyVal)
    (h1 : f "city" = g "city")
    (h2 : f "company_type" = g "company_type")
    (h3 : f "experience" = g "experience")
    (h4 : f "city_development_index" = g "city_development_index") :
    preprocess_input f = preprocess_input g ∧
      ∀ clf : List PyVal → ℤ,
        predict_employee_churn clf f = predict_employee_churn clf g := by
  have hp : preprocess_input f = preprocess_input g := by
    simp only [preprocess_input, getKey, h1, h2, h3, h4]
  exact ⟨hp, fun clf => by simp only [predict_employee_churn, hp]⟩

/-- C9 witness: two concrete records differing in `enrollee_id` and
`gender` but agreeing on the four relevant keys yield the same feature
vector and the same prediction. -/
theorem C9_prediction_depends_only_on_four_keys_witness :
    preprocess_input c9inputA = preprocess_input c9inputB ∧
      predict_employee_churn constClf c9inputA =
        predict_employee_churn constClf c9inputB :=
  ⟨(C9_prediction_depends_only_on_four_keys c9inputA c9inputB
      rfl rfl rfl rfl).1,
    (C9_prediction_depends_only_on_four_keys c9inputA c9inputB
      rfl rfl rfl rfl).2 constClf⟩

/-- C7: the encoded feature matrix has `6 + Σ` (observed distinct levels
per nominal field, after the missing sentinel fill) columns, with the six
ordinal/numeric columns first and the one-hot columns after them. -/
theorem C7_encoded_column_count (df : List Record) :
    ((encode_features df).1).length =
        6 + (nominalFields.map
          (fun fg => (categoriesOf (df.map fillnaRecord) fg.2).length)).sum ∧
      ((encode_features df).1).take 6 =
        nonCategoricalColumns (df.map fillnaRecord) ∧
      ((encode_features df).1).drop 6 = oneHotColumns (df.map fillnaRecord) := by
  have hX : (encode_features df).1 =
      nonCategoricalColumns (df.map fillnaRecord) ++
        oneHotColumns (df.map fillnaRecord) := rfl
  have hlen6 : (nonCategoricalColumns (df.map fillnaRecord)).length = 6 := by
    simp [nonCategoricalColumns, nonCategoricalFields]
  refine ⟨?_, ?_, ?_⟩
  · rw [hX, List.length_append, hlen6]
    congr 1
    rw [oneHotColumns, List.length_flatten, List.map_map]
    congr 1
    apply List.map_congr_left
    intro fg _
    simp [Function.comp, oneHotField, List.length_map]
  · rw [hX, ← hlen6, List.take_left]
  · rw [hX, ← hlen6, List.drop_left]

/-- C10: the `'not_specified'` fill runs over every dataframe column after
the ordinal conversions, so a row with missing `city_development_index`,
`training_hours` or target label puts the literal string
`'not_specified'` at that row's position of the corresponding numeric
pass-through column (resp. of the label vector). -/
theorem C10_fillna_pollutes_numeric_columns (df : List Record) (i : ℕ)
    (r : Record) (hr : df[i]? = some r) :
    (r.city_development_index = .vnan →
      ((colLookup (encode_features df).1 "city_development_index").getD
          [])[i]? = some (.vstr "not_specified")) ∧
      (r.training_hours = .vnan →
        ((colLookup (encode_features df).1 "training_hours").getD [])[i]? =
          some (.vstr "not_specified")) ∧
      (r.target = .vnan →
        ((encode_features df).2)[i]? = some (.vstr "not_specified")) := by
  refine ⟨?_, ?_, ?_⟩
  · intro hnan
    rw [show colLookup (encode_features df).1 "city_development_index" =
        some ((df.map fillnaRecord).map Record.city_development_index)
        from rfl]
    simp only [Option.getD_some, List.getElem?_map, hr, Option.map_some]
    simp [fillnaRecord, fillnaVal, hnan]
  · intro hnan
    rw [show colLookup (encode_features df).1 "training_hours" =
        some ((df.map fillnaRecord).map Record.training_hours) from rfl]
    simp only [Option.getD_some, List.getElem?_map, hr, Option.map_some]
    simp [fillnaRecord, fillnaVal, hnan]
  · intro hnan
    rw [show (encode_features df).2 =
        (df.map fillnaRecord).map Record.target from rfl]
    simp only [List.getElem?_map, hr, Option.map_some]
    simp [fillnaRecord, fillnaVal, hnan]

/-- C10 witness: on a one-row dataframe whose row has missing
`city_development_index`, `training_hours` and target, all three
positions hold the literal string. -/
theorem C10_fillna_pollutes_numeric_columns_witness :
    ((colLookup (encode_features [sampleRow]).1
        "city_development_index").getD [])[0]? =
        some (.vstr "not_specified") ∧
      ((colLookup (encode_features [sampleRow]).1 "training_hours").getD
          [])[0]? = some (.vstr "not_specified") ∧
      ((encode_features [sampleRow]).2)[0]? =
        some (.vstr "not_specified") :=
  ⟨(C10_fillna_pollutes_numeric_columns [sampleRow] 0 sampleRow rfl).1 rfl,
    (C10_fillna_pollutes_numeric_columns [sampleRow] 0 sampleRow rfl).2.1
      rfl,
    (C10_fillna_pollutes_numeric_columns [sampleRow] 0 sampleRow rfl).2.2
      rfl⟩

/-- The argsort is a permutation of the column indices. -/
theorem argsortStable_perm (scores : List ℚ) :
    (argsortStable scores).Perm (List.range scores.length) :=
  List.perm_insertionSort _ _

/-- Selected indices are valid column indices. -/
theorem topkIndices_subset (scores : List ℚ) (k : ℕ) :
    ∀ i ∈ topkIndices scores k, i ∈ List.range scores.length := by
  intro i hi
  have hmem : i ∈ argsortStable scores := (List.drop_sublist _ _).subset hi
  exact (argsortStable_perm scores).mem_iff.mp hmem

/-- Selected indices are pairwise distinct. -/
theorem topkIndices_nodup (scores : List ℚ) (k : ℕ) :
    (topkIndices scores k).Nodup := by
  have h1 : (argsortStable scores).Nodup :=
    ((argsortStable_perm scores).nodup_iff).mpr (List.nodup_range _)
  exact List.Nodup.sublist (List.drop_sublist _ _) h1

/-- Exactly `k` indices are selected when `k` is within bounds. -/
theorem topkIndices_length (scores : List ℚ) (k : ℕ)
    (hk : k ≤ scores.length) : (topkIndices scores k).length = k := by
  rw [topkIndices, List.length_drop, (argsortStable_perm scores).length_eq,
    List.length_range]
  omega

/-- Masking a column list keeps as many columns as the mask has `true`
entries. -/
theorem zipmask_length {α : Type} (cols : List α) :
    ∀ mask : List Bool, cols.length = mask.length →
      (((cols.zip mask).filter (fun p => p.2)).map (fun p => p.1)).length =
        mask.countP id := by
  induction cols with
  | nil =>
    intro mask h
    cases mask with
    | nil => rfl
    | cons b ms => simp at h
  | cons a as ih =>
    intro mask h
    cases mask with
    | nil => simp at h
    | cons b ms =>
      simp only [List.zip_cons_cons, List.filter_cons, List.countP_cons]
      cases b with
      | true =>
        simp only [if_pos rfl]
        simp [ih ms (by simpa using h)]
      | false =>
        simp [ih ms (by simpa using h)]

/-- An all-true mask keeps every column unchanged. -/
theorem zipmask_all_true {α : Type} (cols : List α) :
    ∀ mask : List Bool, cols.length = mask.length →
      (∀ b ∈ mask, b = true) →
      ((cols.zip mask).filter (fun p => p.2)).map (fun p => p.1) = cols := by
  induction cols with
  | nil =>
    intro mask h _
    cases mask with
    | nil => rfl
    | cons b ms => simp at h
  | cons a as ih =>
    intro mask h hall
    cases mask with
    | nil => simp at h
    | cons b ms =>
      have hb : b = true := hall b (List.mem_cons_self _ _)
      subst hb
      have hstep : ((a :: as).zip (true :: ms)).filter (fun p => p.2) =
          (a, true) :: (as.zip ms).filter (fun p => p.2) := rfl
      rw [hstep, List.map_cons, ih ms (by simpa using h)
        (fun c hc => hall c (List.mem_cons_of_mem _ hc))]

/-- The support mask holds exactly as many `true` entries as there are
selected indices. -/
theorem supportMask_count (scores : List ℚ) (k : ℕ) :
    (supportMask scores k).countP id = (topkIndices scores k).length := by
  rw [supportMask, List.countP_map, List.countP_eq_length_filter]
  have hperm : ((List.range scores.length).filter
      (id ∘ fun i => decide (i ∈ topkIndices scores k))).Perm
        (topkIndices scores k) := by
    rw [List.perm_ext_iff_of_nodup
      (List.Nodup.filter _ (List.nodup_range _))
      (topkIndices_nodup scores k)]
    intro a
    simp only [List.mem_filter, List.mem_range, Function.comp, id,
      decide_eq_true_eq]
    constructor
    · exact fun h => h.2
    · intro h
      refine ⟨?_, h⟩
      have := topkIndices_subset scores k a h
      simpa using this
  exact hperm.length_eq

/-- With `k` equal to the column count the mask is all-true. -/
theorem supportMask_all_true (scores : List ℚ) :
    ∀ b ∈ supportMask scores scores.length, b = true := by
  intro b hb
  rw [supportMask] at hb
  rcases List.mem_map.mp hb with ⟨i, hi, rfl⟩
  simp only [decide_eq_true_eq]
  rw [topkIndices, Nat.sub_self, List.drop_zero]
  exact (argsortStable_perm scores).mem_iff.mpr hi

/-- C8: feature selection over an encoded matrix with `N` columns and any
configured `K ≤ N` returns exactly `K` columns, and with `K = N` it
returns all columns unchanged in their relative order. -/
theorem C8_select_features_count {α : Type} (cols : List α)
    (scores : List ℚ) (k : ℕ) (hlen : cols.length = scores.length)
    (hk : k ≤ scores.length) :
    (select_features cols scores k).length = k ∧
      (k = scores.length → select_features cols scores k = cols) := by
  have hmask : cols.length = (supportMask scores k).length := by
    rw [supportMask, List.length_map, List.length_range, hlen]
  constructor
  · rw [select_features, zipmask_length cols (supportMask scores k) hmask,
      supportMask_count, topkIndices_length scores k hk]
  · intro hkn
    subst hkn
    rw [select_features]
    exact zipmask_all_true cols (supportMask scores scores.length) hmask
      (supportMask_all_true scores)

/-- C8 witness: three columns with scores `[1, 3, 2]`; selecting `K = 2`
yields 2 columns, and the bound `2 ≤ 3` holds. -/
theorem C8_select_features_count_witness :
    (select_features ["a", "b", "c"] [1, 3, 2] 2).length = 2 ∧
      (2 = ([1, 3, 2] : List ℚ).length →
        select_features ["a", "b", "c"] [1, 3, 2] 2 = ["a", "b", "c"]) :=
  C8_select_features_count ["a", "b", "c"] [1, 3, 2] 2 rfl (by decide)
